import Mathlib

/-!
Verification development for the `evaluator-travaux-etudiants` repository.

The repository is a Next.js API route (`src/app/api/evaluate/route.ts`, with
near-duplicate revisions among the unnamed source files) implementing a
one-shot document-grading pipeline: a multipart upload is saved to a scratch
file under `/tmp/uploads`, its text is extracted by file extension (pdf/docx),
a prompt is built and sent to an LLM chat-completion endpoint, the first JSON
object is pulled out of the reply with the regex `\x7b[\s\S]*\x7d`, and the
scratch file is deleted in a `finally` block.

We shallowly embed the route's logic below.  Stateful/IO parts (file writes,
the HTTP call, extraction libraries) are passed in explicitly as stub
functions and their effects are recorded in a `PostOutcome` record; pure
string manipulation (URL construction, extension dispatch, the JSON
extraction regex and `JSON.parse`) is translated directly.  JavaScript
strings are modeled as Lean `String` (code points rather than UTF-16 units;
all inputs of interest are within the BMP, where the two agree).  ASCII
apostrophes inside the French message strings of the source are rendered with
the typographic apostrophe, which does not affect any claim.

Two revisions of the route appear in `route.ts` (separated by a document
separator marker); we call them V1 (first revision, essentially identical to
`src/unnamed/part_000` and `part_001`) and V2 (second revision, the one using
the `z-ai-web-dev-sdk`).  Where claims cite both, both are embedded.
-/

/-- JSON values, as produced by `JSON.parse`.  Numbers keep their source
lexeme: no claim computes with numeric values, so this avoids floating
point while preserving which texts parse. -/
inductive Json where
  | null : Json
  | bool (b : Bool) : Json
  | num (lit : String) : Json
  | str (s : String) : Json
  | arr (elems : List Json) : Json
  | obj (fields : List (String × Json)) : Json

/-- JSON whitespace, as accepted by `JSON.parse`: space, tab, LF, CR. -/
def skipWs : List Char → List Char
  | [] => []
  | c :: cs => if c = ' ' ∨ c = '\t' ∨ c = '\n' ∨ c = '\r' then skipWs cs else c :: cs

/-- Value of a hexadecimal digit, for `\uXXXX` escapes. -/
def hexVal (c : Char) : Option Nat :=
  if c.isDigit then some (c.toNat - '0'.toNat)
  else if 'a' ≤ c ∧ c ≤ 'f' then some (c.toNat - 'a'.toNat + 10)
  else if 'A' ≤ c ∧ c ≤ 'F' then some (c.toNat - 'A'.toNat + 10)
  else none

/-- Body of a JSON string literal (input starts after the opening quote);
returns the decoded characters and the input after the closing quote.
`fuel` bounds recursion depth; every call consumes at least one character. -/
def parseStringBody : Nat → List Char → Option (List Char × List Char)
  | 0, _ => none
  | _, [] => none
  | fuel + 1, c :: cs =>
    if c = '"' then some ([], cs)
    else if c = '\\' then
      match cs with
      | [] => none
      | e :: cs₂ =>
        let esc : Option (Char × List Char) :=
          if e = '"' then some ('"', cs₂)
          else if e = '\\' then some ('\\', cs₂)
          else if e = '/' then some ('/', cs₂)
          else if e = 'b' then some ('\x08', cs₂)
          else if e = 'f' then some ('\x0c', cs₂)
          else if e = 'n' then some ('\n', cs₂)
          else if e = 'r' then some ('\r', cs₂)
          else if e = 't' then some ('\t', cs₂)
          else if e = 'u' then
            match cs₂ with
            | h1 :: h2 :: h3 :: h4 :: cs₃ =>
              match hexVal h1, hexVal h2, hexVal h3, hexVal h4 with
              | some a, some b, some c2, some d =>
                some (Char.ofNat (((a * 16 + b) * 16 + c2) * 16 + d), cs₃)
              | _, _, _, _ => none
            | _ => none
          else none
        match esc with
        | some (ch, rest) =>
          match parseStringBody fuel rest with
          | some (tail, r) => some (ch :: tail, r)
          | none => none
        | none => none
    else if c.toNat < 0x20 then none
    else
      match parseStringBody fuel cs with
      | some (tail, r) => some (c :: tail, r)
      | none => none

/-- A JSON number literal (sign, integer part without a stray leading zero,
optional fraction, optional exponent).  Returns the lexeme and the rest. -/
def parseNumber (cs : List Char) : Option (Json × List Char) :=
  let headParts : List Char × List Char :=
    match cs with
    | '-' :: r => (['-'], r)
    | _ => ([], cs)
  let negPart := headParts.1
  let cs₁ := headParts.2
  match cs₁ with
  | [] => none
  | c :: _ =>
    if !c.isDigit then none
    else
      let intPart := cs₁.takeWhile Char.isDigit
      let r₁ := cs₁.dropWhile Char.isDigit
      if 1 < intPart.length ∧ intPart.headD ' ' = '0' then none
      else
        let fracRes : Option (List Char × List Char) :=
          match r₁ with
          | '.' :: r₂ =>
            match r₂ with
            | d :: _ =>
              if d.isDigit then some ('.' :: r₂.takeWhile Char.isDigit, r₂.dropWhile Char.isDigit)
              else none
            | [] => none
          | _ => some ([], r₁)
        match fracRes with
        | none => none
        | some (fracPart, r₃) =>
          let expRes : Option (List Char × List Char) :=
            match r₃ with
            | e :: r₄ =>
              if e = 'e' ∨ e = 'E' then
                let signParts : List Char × List Char :=
                  match r₄ with
                  | '+' :: r5 => (['+'], r5)
                  | '-' :: r5 => (['-'], r5)
                  | _ => ([], r₄)
                match signParts.2 with
                | d :: _ =>
                  if d.isDigit then
                    some (e :: signParts.1 ++ signParts.2.takeWhile Char.isDigit,
                          signParts.2.dropWhile Char.isDigit)
                  else none
                | [] => none
              else some ([], r₃)
            | [] => some ([], r₃)
          match expRes with
          | none => none
          | some (expPart, r₆) =>
            some (.num ⟨negPart ++ intPart ++ fracPart ++ expPart⟩, r₆)

mutual

/-- One JSON value (ECMA-404, as `JSON.parse` accepts), returning the value
and the remaining input.  `fuel` bounds recursion; each recursive call is
made only after consuming at least one character, so any fuel of at least
four times the input length is sufficient. -/
def parseValue : Nat → List Char → Option (Json × List Char)
  | 0, _ => none
  | fuel + 1, cs =>
    match skipWs cs with
    | [] => none
    | c :: rest =>
      if c = '\x7b' then parseObjBody fuel rest
      else if c = '[' then parseArrBody fuel rest
      else if c = '"' then
        match parseStringBody fuel rest with
        | some (chars, r) => some (.str ⟨chars⟩, r)
        | none => none
      else if c = 't' then
        match rest with
        | 'r' :: 'u' :: 'e' :: r => some (.bool true, r)
        | _ => none
      else if c = 'f' then
        match rest with
        | 'a' :: 'l' :: 's' :: 'e' :: r => some (.bool false, r)
        | _ => none
      else if c = 'n' then
        match rest with
        | 'u' :: 'l' :: 'l' :: r => some (.null, r)
        | _ => none
      else parseNumber (c :: rest)

/-- Object body, input starting after the opening brace. -/
def parseObjBody : Nat → List Char → Option (Json × List Char)
  | 0, _ => none
  | fuel + 1, cs =>
    match skipWs cs with
    | '\x7d' :: r => some (.obj [], r)
    | cs' => parseMembers fuel cs' []

/-- Members of an object: `"key" : value` pairs separated by commas, ending
with a closing brace.  `acc` holds the pairs already read. -/
def parseMembers : Nat → List Char → List (String × Json) → Option (Json × List Char)
  | 0, _, _ => none
  | fuel + 1, cs, acc =>
    match skipWs cs with
    | '"' :: r =>
      match parseStringBody fuel r with
      | some (key, r₂) =>
        match skipWs r₂ with
        | ':' :: r₃ =>
          match parseValue fuel r₃ with
          | some (v, r₄) =>
            match skipWs r₄ with
            | ',' :: r₅ => parseMembers fuel r₅ (acc ++ [(⟨key⟩, v)])
            | '\x7d' :: r₅ => some (.obj (acc ++ [(⟨key⟩, v)]), r₅)
            | _ => none
          | none => none
        | _ => none
      | none => none
    | _ => none

/-- Array body, input starting after the opening bracket. -/
def parseArrBody : Nat → List Char → Option (Json × List Char)
  | 0, _ => none
  | fuel + 1, cs =>
    match skipWs cs with
    | ']' :: r => some (.arr [], r)
    | cs' => parseElems fuel cs' []

/-- Elements of an array, separated by commas, ending with a closing
bracket. -/
def parseElems : Nat → List Char → List Json → Option (Json × List Char)
  | 0, _, _ => none
  | fuel + 1, cs, acc =>
    match parseValue fuel cs with
    | some (v, r) =>
      match skipWs r with
      | ',' :: r₂ => parseElems fuel r₂ (acc ++ [v])
      | ']' :: r₂ => some (.arr (acc ++ [v]), r₂)
      | _ => none
    | none => none

end

/-- `JSON.parse`: one JSON value covering the entire input up to trailing
whitespace; anything left over is a syntax error, as in JavaScript. -/
def jsonParse (s : String) : Except String Json :=
  match parseValue (s.data.length * 4 + 8) s.data with
  | some (v, rest) =>
    if skipWs rest = [] then .ok v else .error "Unexpected token after JSON value"
  | none => .error "Invalid JSON"

/-- Index of the first occurrence of `c`, if any. -/
def firstIdxOf (c : Char) : List Char → Option Nat
  | [] => none
  | a :: as => if a = c then some 0 else (firstIdxOf c as).map (· + 1)

/-- Index of the last occurrence of `c`, if any. -/
def lastIdxOf (c : Char) (cs : List Char) : Option Nat :=
  (firstIdxOf c cs.reverse).map (fun k => cs.length - 1 - k)

/-- The match of the regex `\x7b[\s\S]*\x7d` on `s`, as in
`response.match(/\x7b[\s\S]*\x7d/)`: the regex is greedy, so the leftmost
longest match runs from the first `\x7b` in the text to the last `\x7d`,
provided the latter comes strictly after the former; otherwise there is no
match. -/
def greedySpan (s : String) : Option String :=
  match firstIdxOf '\x7b' s.data, lastIdxOf '\x7d' s.data with
  | some i, some j => if i < j then some ⟨(s.data.drop i).take (j - i + 1)⟩ else none
  | _, _ => none

/-- V1 response parsing (route.ts first revision, lines 142-146; identically
`part_000` lines 160-164): `let jsonString = response; const match =
response.match(...); if (match) jsonString = match[0]; return
JSON.parse(jsonString)` — when the regex does not match, the whole reply is
handed to `JSON.parse`. -/
def parseModelResponseV1 (response : String) : Except String Json :=
  match greedySpan response with
  | some span => jsonParse span
  | none => jsonParse response

/-- V2 response parsing (route.ts second revision, lines 376-381):
`if (jsonMatch) return JSON.parse(jsonMatch[0]); else throw new
Error('Réponse invalide du LLM')`. -/
def parseModelResponseV2 (response : String) : Except String Json :=
  match greedySpan response with
  | some span => jsonParse span
  | none => .error "Réponse invalide du LLM"

/-- V1 system prompt (route.ts first revision, lines 103-115): a fixed
template string, independent of the request. -/
def systemPromptV1 : String :=
  "Tu es un enseignant expert chargé d’évaluer des devoirs d’étudiants.\n  Ton but est de fournir une correction constructive, bienveillante mais rigoureuse.\n\n  Format de réponse attendu (JSON uniquement) :\n  \x7b\n    \"score\": \"Note sur 20 (ex: 14/20)\",\n    \"feedback\": \"Commentaire général encourageant\",\n    \"strengths\": [\"Point fort 1\", \"Point fort 2\"],\n    \"weaknesses\": [\"Point faible 1\", \"Point faible 2\"],\n    \"detailed_corrections\": [\n      \x7b \"original\": \"Texte fautif cité\", \"correction\": \"Suggestion de correction\", \"explanation\": \"Pourquoi c’est faux\" \x7d\n    ]\n  \x7d"

/-- V1 user prompt (route.ts first revision, lines 117-127): the five inputs
interpolated verbatim into a fixed template. -/
def userPromptV1 (assignmentTitle subject instructions criteria studentWork : String) : String :=
  "Évalue le travail suivant :\n\nTITRE: " ++ assignmentTitle ++
  "\nMATIÈRE: " ++ subject ++
  "\nCONSIGNES: " ++ instructions ++
  "\nCRITÈRES: " ++ criteria ++
  "\n\nTRAVAIL DE L’ÉTUDIANT :\n" ++ studentWork ++
  "\n\nRéponds UNIQUEMENT en JSON valide sans Markdown."

/-- V2 system prompt (route.ts second revision, lines 314-336).  Note it
interpolates `subject` ("Adapte ton évaluation à la matière"). -/
def systemPromptV2 (subject : String) : String :=
  "Tu es un enseignant expert et impartial. Ton rôle est d’évaluer des travaux d’étudiants de manière constructive et détaillée.\n\nIMPORTANT: Tu dois TOUJOURS répondre en JSON avec exactement cette structure:\n\x7b\n  \"summary\": \"résumé bref de l’évaluation en 2-3 phrases\",\n  \"strengths\": [\"point fort 1\", \"point fort 2\", ...],\n  \"improvements\": [\"point à améliorer 1\", \"point à améliorer 2\", ...],\n  \"grade\": \"note sur 20 (ex: 14/20)\",\n  \"detailedAnalysis\": \"analyse détaillée et constructive\"\n\x7d\n\nRègles d’évaluation:\n- Sois objectif et constructif\n- Donne des retours actionnables\n- La note doit être réaliste et justifiée\n- Les points forts doivent être sincères\n- Les points à améliorer doivent être précis et constructifs\n- Adapte ton évaluation à la matière: " ++ subject ++
  "\n- Ne sois pas trop sévère, encourage l’étudiant\n- Si le travail est excellent, donne une note élevée (16-20)\n- Si le travail est bon mais avec des erreurs, donne une note moyenne (12-15)\n- Si le travail a des problèmes majeurs, donne une note plus basse (8-11)\n- Seulement en cas de travail incomplet ou très mauvais, donne une note basse (<8)"

/-- V2 user prompt (route.ts second revision, lines 338-352). -/
def userPromptV2 (assignmentTitle subject instructions criteria studentWork : String) : String :=
  "Évalue le travail suivant:\n\nTITRE DU DEVOIR: " ++ assignmentTitle ++
  "\nMATIÈRE: " ++ subject ++
  "\n\nCONSIGNES DU DEVOIR:\n" ++ instructions ++
  "\n\nCRITÈRES D’ÉVALUATION:\n" ++ criteria ++
  "\n\nTRAVAIL DE L’ÉTUDIENT:\n" ++ studentWork ++
  "\n\nÉvalue ce travail en tenant compte des consignes et des critères fournis. Réponds UNIQUEMENT en JSON avec la structure demandée."

/-- V1 `evaluateWork` (route.ts first revision, lines 100-151).  The model
call is a stub `modelStub sys user`: `.error` for a thrown API error,
`.ok none` for a missing reply, `.ok (some content)` for a reply; `!response`
in the source also treats the empty string as missing.  Any error inside the
`try` block is re-thrown as `Erreur IA: <message>`. -/
def evaluateWorkV1 (modelStub : String → String → Except String (Option String))
    (assignmentTitle subject instructions criteria studentWork : String) :
    Except String Json :=
  let sys := systemPromptV1
  let user := userPromptV1 assignmentTitle subject instructions criteria studentWork
  let attempt : Except String Json :=
    match modelStub sys user with
    | .error m => .error m
    | .ok none => .error "Pas de réponse du LLM"
    | .ok (some response) =>
      if response = "" then .error "Pas de réponse du LLM"
      else parseModelResponseV1 response
  match attempt with
  | .ok j => .ok j
  | .error m => .error ("Erreur IA: " ++ m)

/-- V2 `evaluateWork` (route.ts second revision, lines 305-386).  As V1 but
with the V2 prompts and parser, and every error inside the `try` collapsed
to the constant message of line 384. -/
def evaluateWorkV2 (modelStub : String → String → Except String (Option String))
    (assignmentTitle subject instructions criteria studentWork : String) :
    Except String Json :=
  let sys := systemPromptV2 subject
  let user := userPromptV2 assignmentTitle subject instructions criteria studentWork
  let attempt : Except String Json :=
    match modelStub sys user with
    | .error m => .error m
    | .ok none => .error "Pas de réponse du LLM"
    | .ok (some response) =>
      if response = "" then .error "Pas de réponse du LLM"
      else parseModelResponseV2 response
  match attempt with
  | .ok j => .ok j
  | .error _ => .error "Erreur lors de l’évaluation par l’IA"

/-- `toLowerCase()` (ASCII; every extension of interest is ASCII). -/
def toLowerStr (s : String) : String := ⟨s.data.map Char.toLower⟩

/-- `String.prototype.trim()`: strip leading and trailing whitespace. -/
def trimStr (s : String) : String :=
  ⟨((s.data.dropWhile Char.isWhitespace).reverse.dropWhile Char.isWhitespace).reverse⟩

/-- `fileName.split('.').pop()`: the segment after the last `.`, or the
whole string when it contains no `.` (list form). -/
def afterLastDotL (cs : List Char) : List Char :=
  (cs.reverse.takeWhile (fun c => !(c = '.'))).reverse

/-- `fileName.split('.').pop()` on strings. -/
def afterLastDot (s : String) : String := ⟨afterLastDotL s.data⟩

/-- `fileName.split('.').pop()?.toLowerCase() || ''` (route.ts line 177 /
line 425): the type tag used for extraction dispatch.  `split` always
returns at least one element, so the `|| ''` branch is dead. -/
def fileTypeOf (fileName : String) : String := toLowerStr (afterLastDot fileName)

/-- V1 `extractText` (route.ts first revision, lines 93-97): dispatch on the
type tag; the pdf and docx extractors are library calls, passed as stubs
from the file path. -/
def extractText (pdfStub docxStub : String → Except String String)
    (filePath fileType : String) : Except String String :=
  if fileType = "pdf" then pdfStub filePath
  else if fileType = "docx" then docxStub filePath
  else .error "Type non supporté"

/-- V2 `extractText` (route.ts second revision, lines 294-302): same
dispatch, different message. -/
def extractTextV2 (pdfStub docxStub : String → Except String String)
    (filePath fileType : String) : Except String String :=
  if fileType = "pdf" then pdfStub filePath
  else if fileType = "docx" then docxStub filePath
  else .error "Type de fichier non supporté"

/-- `baseUrl.replace(/\/+$/, '')`: drop all trailing slashes. -/
def stripTrailingSlashes (s : String) : String :=
  ⟨(s.data.reverse.dropWhile (fun c => c = '/')).reverse⟩

/-- Boolean prefix test on character lists (our own, to keep all string
combinatorics self-contained). -/
def isPre : List Char → List Char → Bool
  | [], _ => true
  | _ :: _, [] => false
  | a :: as, b :: bs => a = b && isPre as bs

/-- `s.includes(p)` on character lists. -/
def occursIn (p : List Char) : List Char → Bool
  | [] => isPre p []
  | c :: cs => isPre p (c :: cs) || occursIn p cs

/-- Number of positions of `s` at which `p` occurs. -/
def countSub (p : List Char) : List Char → Nat
  | [] => 0
  | c :: cs => (if isPre p (c :: cs) then 1 else 0) + countSub p cs

/-- Occurrence count of `p` in `s`, on strings. -/
def countSubstr (p s : String) : Nat := countSub p.data s.data

/-- `s.endsWith(p)`. -/
def strEndsWith (s p : String) : Bool := isPre p.data.reverse s.data.reverse

/-- `ZAIClient.createCompletion` URL construction (route.ts first revision,
line 27): `this.baseUrl.replace(/\/+$/, '') + '/chat/completions'` — the
completion path is appended unconditionally. -/
def zaiCompletionUrl (baseUrl : String) : String :=
  stripTrailingSlashes baseUrl ++ "/chat/completions"

/-- `OpenAIClient.createCompletion` URL construction (`part_000` lines
31-39): strip trailing slashes; if the result already ends in
`/chat/completions` keep it; otherwise append `/chat/completions` when it
contains `/v1` and `/v1/chat/completions` when it does not. -/
def openaiCompletionUrl (apiEndpoint : String) : String :=
  let url := stripTrailingSlashes apiEndpoint
  if strEndsWith url "/chat/completions" then url
  else if occursIn ("/v1".data) url.data then url ++ "/chat/completions"
  else url ++ "/v1/chat/completions"

/-- Split on `/` (every separator ends a segment). -/
def splitSegs : List Char → List (List Char)
  | [] => [[]]
  | c :: cs =>
    if c = '/' then [] :: splitSegs cs
    else
      match splitSegs cs with
      | [] => [[c]]
      | s :: rest => (c :: s) :: rest

/-- One step of POSIX path normalization over segments of an absolute path:
empty and `.` segments vanish, `..` removes the previous segment (or nothing
at the root), anything else is kept. -/
def normStep (acc : List (List Char)) (s : List Char) : List (List Char) :=
  if s = [] then acc
  else if s = ['.'] then acc
  else if s = ['.', '.'] then acc.dropLast
  else acc ++ [s]

/-- POSIX path normalization over the segment list of an absolute path. -/
def normSegs (segs : List (List Char)) : List (List Char) := segs.foldl normStep []

/-- Rejoin segments with `/`. -/
def joinSegs : List (List Char) → List Char
  | [] => []
  | [s] => s
  | s :: rest => s ++ '/' :: joinSegs rest

/-- Node's `path.join(a, b)` for an absolute first argument (the only use in
the route: `path.join(UPLOAD_DIR, fileName)`): concatenate with `/` and
normalize `//`, `.` and `..`. -/
def pathJoin (a b : String) : String :=
  ⟨'/' :: joinSegs (normSegs (splitSegs (a.data ++ '/' :: b.data)))⟩

/-- `p` lies inside directory `dir` (equal to it or strictly below it). -/
def isUnder (dir p : String) : Bool :=
  (p = dir) || isPre (dir.data ++ ['/']) p.data

/-- `const UPLOAD_DIR = '/tmp/uploads'`. -/
def UPLOAD_DIR : String := "/tmp/uploads"

/-- The uploaded file: only its client-supplied name matters to the pure
logic; its bytes are consumed by the extraction stubs. -/
structure UploadedFile where
  name : String

/-- The parsed multipart form.  `formData.get` returns `null` for an absent
field; the route only ever tests the text fields for falsiness, so they are
modeled as strings with `""` for absent/empty. -/
structure FormData where
  file : Option UploadedFile
  assignmentTitle : String
  subject : String
  instructions : String
  criteria : String

/-- A `NextResponse.json(body, { status })`. -/
structure HttpResponse where
  status : Nat
  body : Json

/-- `NextResponse.json({ error: message }, ...)` bodies. -/
def errBody (m : String) : Json := Json.obj [("error", Json.str m)]

/-- Everything one call of the route produces: the HTTP response, the scratch
paths written, the unlink attempts (the `finally` block), and the unlink
attempts that failed and were only logged (`.catch(console.error)` /
`try/catch` around `unlink`). -/
structure PostOutcome where
  response : HttpResponse
  written : List String
  unlinkAttempts : List String
  failedUnlinks : List String

/-- Turn the result of the `try` body into the HTTP response: parsed object
with 200, or the caught error message with 500 (route.ts lines 192-198 /
444-459). -/
def responseOf (inner : Except String Json) : HttpResponse :=
  match inner with
  | .ok j => ⟨200, j⟩
  | .error m => ⟨500, errBody m⟩

/-- Body of V1's inner `try` (route.ts first revision, lines 176-192):
extract, validate length (no trim), evaluate.  `!studentWork` treats the
empty string as falsy. -/
def innerV1 (pdfStub docxStub : String → Except String String)
    (modelStub : String → String → Except String (Option String))
    (filePath fileType assignmentTitle subject instructions criteria : String) :
    Except String Json :=
  match extractText pdfStub docxStub filePath fileType with
  | .error m => .error m
  | .ok studentWork =>
    if studentWork = "" || studentWork.length < 10 then
      .error "Le fichier semble vide ou illisible."
    else
      evaluateWorkV1 modelStub assignmentTitle subject instructions criteria studentWork

/-- Body of V2's inner `try` (route.ts second revision, lines 423-444):
extract, validate trimmed length, evaluate. -/
def innerV2 (pdfStub docxStub : String → Except String String)
    (modelStub : String → String → Except String (Option String))
    (filePath fileType assignmentTitle subject instructions criteria : String) :
    Except String Json :=
  match extractTextV2 pdfStub docxStub filePath fileType with
  | .error m => .error m
  | .ok studentWork =>
    if studentWork = "" || (trimStr studentWork).length < 10 then
      .error ("Texte extrait trop court (" ++ toString studentWork.length ++
        " caractères). Vérifiez que le fichier contient du texte extractible.")
    else
      evaluateWorkV2 modelStub assignmentTitle subject instructions criteria studentWork

/-- V1 `POST` (route.ts first revision, lines 154-200).  `tsStr` is
`Date.now()` as rendered in the template literal (a decimal digit string);
`writeResult` models `writeFile`; `unlinkOk` models whether `unlink`
succeeds.  The `finally` block always attempts the unlink once the write
succeeded, and a failed unlink is only logged (`.catch(console.error)`),
recorded here in `failedUnlinks`. -/
def POSTv1 (form : FormData) (tsStr : String) (writeResult : Except String Unit)
    (pdfStub docxStub : String → Except String String)
    (modelStub : String → String → Except String (Option String))
    (unlinkOk : Bool) : PostOutcome :=
  match form.file with
  | none => ⟨⟨400, errBody "Fichier manquant"⟩, [], [], []⟩
  | some f =>
    let fileName := tsStr ++ "-" ++ f.name
    let filePath := pathJoin UPLOAD_DIR fileName
    match writeResult with
    | .error m => ⟨⟨500, errBody m⟩, [], [], []⟩
    | .ok _ =>
      ⟨responseOf (innerV1 pdfStub docxStub modelStub filePath (fileTypeOf fileName)
          form.assignmentTitle form.subject form.instructions form.criteria),
        [filePath], [filePath], if unlinkOk then [] else [filePath]⟩

/-- V2 `POST` (route.ts second revision, lines 388-461): as V1 plus the
`!instructions || !criteria` 400 check, and the V2 inner body.  Its
`finally` wraps `unlink` in `try/catch` with the failure only logged. -/
def POSTv2 (form : FormData) (tsStr : String) (writeResult : Except String Unit)
    (pdfStub docxStub : String → Except String String)
    (modelStub : String → String → Except String (Option String))
    (unlinkOk : Bool) : PostOutcome :=
  match form.file with
  | none => ⟨⟨400, errBody "Aucun fichier fourni"⟩, [], [], []⟩
  | some f =>
    if form.instructions = "" || form.criteria = "" then
      ⟨⟨400, errBody "Consignes ou critères manquants"⟩, [], [], []⟩
    else
      let fileName := tsStr ++ "-" ++ f.name
      let filePath := pathJoin UPLOAD_DIR fileName
      match writeResult with
      | .error m => ⟨⟨500, errBody m⟩, [], [], []⟩
      | .ok _ =>
        ⟨responseOf (innerV2 pdfStub docxStub modelStub filePath (fileTypeOf fileName)
            form.assignmentTitle form.subject form.instructions form.criteria),
          [filePath], [filePath], if unlinkOk then [] else [filePath]⟩

theorem strData_append (a b : String) : (a ++ b).data = a.data ++ b.data := rfl

theorem takeWhile_all {p : Char → Bool} : ∀ xs : List Char, (∀ x ∈ xs, p x = true) →
    xs.takeWhile p = xs := by
  intro xs
  induction xs with
  | nil => intro _; rfl
  | cons x xs ih =>
    intro h
    have hx := h x (by simp)
    have ih' := ih (fun y hy => h y (by simp [hy]))
    simp [List.takeWhile, hx, ih']

theorem takeWhile_append_stop {p : Char → Bool} (ys : List Char) (y : Char) (hy : p y = false) :
    ∀ xs : List Char, (∀ x ∈ xs, p x = true) → (xs ++ y :: ys).takeWhile p = xs := by
  intro xs
  induction xs with
  | nil => intro _; simp [List.takeWhile, hy]
  | cons x xs ih =>
    intro hall
    have hx := hall x (by simp)
    have ih' := ih (fun z hz => hall z (by simp [hz]))
    simp [List.takeWhile, hx, ih']

theorem afterLastDotL_no_dot (cs : List Char) (h : '.' ∉ cs) : afterLastDotL cs = cs := by
  unfold afterLastDotL
  rw [takeWhile_all cs.reverse ?_, List.reverse_reverse]
  intro x hx
  have hmem : x ∈ cs := List.mem_reverse.mp hx
  have hne : ¬(x = '.') := by
    intro he
    exact h (he ▸ hmem)
  simp [hne]

theorem afterLastDotL_last (pre ext : List Char) (h : '.' ∉ ext) :
    afterLastDotL (pre ++ '.' :: ext) = ext := by
  unfold afterLastDotL
  have : (pre ++ '.' :: ext).reverse = ext.reverse ++ '.' :: pre.reverse := by
    simp
  rw [this, takeWhile_append_stop pre.reverse '.' (by simp) ext.reverse ?_, List.reverse_reverse]
  intro x hx
  have hmem : x ∈ ext := List.mem_reverse.mp hx
  have hne : ¬(x = '.') := by
    intro he
    exact h (he ▸ hmem)
  simp [hne]

theorem firstIdxOf_append (c : Char) (pre rest : List Char) (h : c ∉ pre) :
    firstIdxOf c (pre ++ c :: rest) = some pre.length := by
  induction pre with
  | nil => simp [firstIdxOf]
  | cons a pre ih =>
    have ha : ¬(a = c) := fun he => h (by simp [he])
    have ih' := ih (fun hm => h (List.mem_cons_of_mem a hm))
    simp [firstIdxOf, ha, ih']

theorem isPre_short (p : List Char) : ∀ u : List Char, u.length < p.length → isPre p u = false := by
  induction p with
  | nil => intro u h; simp at h
  | cons a as ih =>
    intro u h
    cases u with
    | nil => rfl
    | cons b bs =>
      have hlt : bs.length < as.length := by
        simp only [List.length_cons] at h
        omega
      simp [isPre, ih bs hlt]

theorem isPre_append_long (p : List Char) : ∀ u t : List Char, p.length ≤ u.length →
    isPre p (u ++ t) = isPre p u := by
  induction p with
  | nil => intro u t _; rfl
  | cons a as ih =>
    intro u t h
    cases u with
    | nil => simp at h
    | cons b bs =>
      have hle : as.length ≤ bs.length := by
        simp only [List.length_cons] at h
        omega
      simp only [List.cons_append, isPre, List.append_eq]
      rw [ih bs t hle]

theorem isPre_decomp : ∀ u p t : List Char, isPre p (u ++ t) = true →
    u.length ≤ p.length → isPre (List.drop u.length p) t = true := by
  intro u
  induction u with
  | nil => intro p t h _; simpa using h
  | cons b bs ih =>
    intro p t h hlen
    cases p with
    | nil => simp at hlen
    | cons a as =>
      simp only [List.cons_append, isPre, Bool.and_eq_true] at h
      have hle : bs.length ≤ as.length := by
        simp only [List.length_cons] at hlen
        omega
      simpa using ih as t h.2 hle

theorem isPre_exists : ∀ q s : List Char, isPre q s = true → ∃ r, s = q ++ r := by
  intro q
  induction q with
  | nil => intro s _; exact ⟨s, rfl⟩
  | cons a as ih =>
    intro s h
    cases s with
    | nil => simp [isPre] at h
    | cons b bs =>
      simp only [isPre, Bool.and_eq_true, decide_eq_true_eq] at h
      obtain ⟨r, hr⟩ := ih bs h.2
      exact ⟨r, by simp [h.1, hr]⟩

theorem countSub_le_append (p w : List Char) : ∀ v : List Char,
    countSub p w ≤ countSub p (v ++ w) := by
  intro v
  induction v with
  | nil => simp
  | cons c v ih =>
    simp only [List.cons_append, countSub]
    exact le_trans ih (Nat.le_add_left _ _)

theorem countSub_append (p t : List Char)
    (hns : ∀ k, k < p.length → 0 < k → isPre (List.drop k p) t = false) :
    ∀ s, countSub p (s ++ t) = countSub p s + countSub p t := by
  intro s
  induction s with
  | nil => simp [countSub]
  | cons c s ih =>
    have hcond : isPre p (c :: s ++ t) = isPre p (c :: s) := by
      rcases Nat.lt_or_ge (c :: s).length p.length with hlt | hge
      · rw [isPre_short p (c :: s) hlt]
        cases hmatch : isPre p (c :: s ++ t) with
        | false => rfl
        | true =>
          have hdrop := isPre_decomp (c :: s) p t hmatch (le_of_lt hlt)
          have hfalse := hns (c :: s).length hlt (by simp)
          rw [hdrop] at hfalse
          exact absurd hfalse (by simp)
      · exact isPre_append_long p (c :: s) t hge
    simp only [List.cons_append, countSub, List.append_eq, ih]
    simp only [List.cons_append] at hcond
    simp only [hcond]
    omega

theorem normStep_keep (acc : List (List Char)) (s : List Char)
    (h0 : s ≠ []) (h1 : s ≠ ['.']) (h2 : s ≠ ['.', '.']) :
    normStep acc s = acc ++ [s] := by
  simp [normStep, h0, h1, h2]

theorem normStep_dotdot (acc : List (List Char)) (x : List Char) :
    normStep (acc ++ [x]) ['.', '.'] = acc := by
  simp [normStep, List.dropLast_concat]

theorem splitSegs_slash (ys : List Char) : splitSegs ('/' :: ys) = [] :: splitSegs ys := by
  simp [splitSegs]

theorem splitSegs_no_slash (xs : List Char) (h : '/' ∉ xs) : splitSegs xs = [xs] := by
  induction xs with
  | nil => rfl
  | cons c cs ih =>
    have hc : ¬(c = '/') := fun he => h (by simp [he])
    have ih' := ih (fun hm => h (List.mem_cons_of_mem c hm))
    simp [splitSegs, hc, ih']

theorem splitSegs_seg (xs ys : List Char) (h : '/' ∉ xs) :
    splitSegs (xs ++ '/' :: ys) = xs :: splitSegs ys := by
  induction xs with
  | nil => simp [splitSegs]
  | cons c cs ih =>
    have hc : ¬(c = '/') := fun he => h (by simp [he])
    have ih' := ih (fun hm => h (List.mem_cons_of_mem c hm))
    simp [splitSegs, hc, ih']

theorem digits_no_slash {ts : List Char} (h : ∀ c ∈ ts, c.isDigit = true) : '/' ∉ ts :=
  fun hm => absurd (h '/' hm) (by decide)

theorem digits_no_dot {ts : List Char} (h : ∀ c ∈ ts, c.isDigit = true) : '.' ∉ ts :=
  fun hm => absurd (h '.' hm) (by decide)

theorem dash_mem_toLowerStr (s : String) (h : '-' ∈ s.data) : '-' ∈ (toLowerStr s).data :=
  List.mem_map.mpr ⟨'-', h, by decide⟩

/-- C1 counterexample: the extraction regex is greedy, so for a reply
containing two disjoint top-level JSON objects the matched span runs from
the first opening brace to the LAST closing brace; parsing that span fails,
and the first object — although parseable on its own — is not returned.
This refutes the claim that the parser returns the parse of the balanced
span ending at the matching closing brace. -/
theorem c1_counterexample :
    parseModelResponseV2 "\x7b\"a\":1\x7d and \x7b\"b\":2\x7d" =
      .error "Unexpected token after JSON value" ∧
    parseModelResponseV1 "\x7b\"a\":1\x7d and \x7b\"b\":2\x7d" =
      .error "Unexpected token after JSON value" ∧
    jsonParse "\x7b\"a\":1\x7d" = .ok (Json.obj [("a", Json.num "1")]) ∧
    greedySpan "\x7b\"a\":1\x7d and \x7b\"b\":2\x7d" =
      some "\x7b\"a\":1\x7d and \x7b\"b\":2\x7d" :=
  ⟨rfl, rfl, rfl, rfl⟩

/-- C1 (amended): the parser parses the span from the first opening brace to
the last closing brace of the reply (shown abstractly for any
decomposition), so the quoted single-object example is returned exactly,
while a reply with two disjoint top-level objects makes the parse fail
instead of returning the first object. -/
theorem c1_greedy_span :
    (∀ pre mid post : List Char, '\x7b' ∉ pre → '\x7d' ∉ post →
      greedySpan ⟨pre ++ '\x7b' :: (mid ++ '\x7d' :: post)⟩ =
        some ⟨'\x7b' :: (mid ++ ['\x7d'])⟩) ∧
    parseModelResponseV2 "Here is the result: \x7b\"grade\":\"15/20\",\"summary\":\"ok\"\x7d" =
      .ok (Json.obj [("grade", Json.str "15/20"), ("summary", Json.str "ok")]) ∧
    parseModelResponseV1 "Here is the result: \x7b\"grade\":\"15/20\",\"summary\":\"ok\"\x7d" =
      .ok (Json.obj [("grade", Json.str "15/20"), ("summary", Json.str "ok")]) ∧
    parseModelResponseV2 "\x7b\"x\":true\x7d ... \x7b\"y\":false\x7d" =
      .error "Unexpected token after JSON value" := by
  refine ⟨?_, rfl, rfl, rfl⟩
  intro pre mid post hpre hpost
  unfold greedySpan
  have hfirst : firstIdxOf '\x7b' (String.mk (pre ++ '\x7b' :: (mid ++ '\x7d' :: post))).data =
      some pre.length := firstIdxOf_append _ _ _ hpre
  have hrev : (pre ++ '\x7b' :: (mid ++ '\x7d' :: post)).reverse =
      post.reverse ++ '\x7d' :: (mid.reverse ++ '\x7b' :: pre.reverse) := by
    simp
  have hlast : lastIdxOf '\x7d' (String.mk (pre ++ '\x7b' :: (mid ++ '\x7d' :: post))).data =
      some (pre.length + mid.length + 1) := by
    show lastIdxOf '\x7d' (pre ++ '\x7b' :: (mid ++ '\x7d' :: post)) = _
    unfold lastIdxOf
    rw [hrev, firstIdxOf_append _ _ _ (fun hm => hpost (List.mem_reverse.mp hm))]
    simp only [Option.map_some', Option.some.injEq, List.length_append, List.length_cons,
      List.length_reverse]
    omega
  rw [hfirst, hlast]
  have hlt : pre.length < pre.length + mid.length + 1 := by omega
  simp only [hlt, if_true, Option.some.injEq, if_pos]
  have hdrop : (String.mk (pre ++ '\x7b' :: (mid ++ '\x7d' :: post))).data.drop pre.length =
      '\x7b' :: (mid ++ '\x7d' :: post) := List.drop_left _ _
  rw [hdrop]
  have harith : pre.length + mid.length + 1 - pre.length + 1 = mid.length + 2 := by omega
  rw [harith]
  have hsplit : '\x7b' :: (mid ++ '\x7d' :: post) = ('\x7b' :: (mid ++ ['\x7d'])) ++ post := by
    simp
  rw [hsplit]
  have hlen : ('\x7b' :: (mid ++ ['\x7d'])).length = mid.length + 2 := by simp
  rw [← hlen, List.take_left]

/-- C1 witness: the abstract span characterization applied to a concrete
decomposition. -/
theorem c1_greedy_span_witness :
    greedySpan ⟨"ab".data ++ '\x7b' :: ("xy".data ++ '\x7d' :: "cd".data)⟩ =
      some ⟨'\x7b' :: ("xy".data ++ ['\x7d'])⟩ :=
  c1_greedy_span.1 "ab".data "xy".data "cd".data (by decide) (by decide)

/-- C2: on every exit path the unlink attempts are exactly the scratch paths
that were written (the `finally` block always runs once the write
succeeded), and the HTTP response is unchanged by whether the unlink
succeeds or fails — the cleanup failure is swallowed.  Holds for both route
revisions, for every form, timestamp, write result and stub behavior. -/
theorem c2_cleanup_swallowed (form : FormData) (tsStr : String) (wr : Except String Unit)
    (pdf docx : String → Except String String)
    (model : String → String → Except String (Option String)) (u u' : Bool) :
    (POSTv1 form tsStr wr pdf docx model u).unlinkAttempts =
      (POSTv1 form tsStr wr pdf docx model u).written ∧
    (POSTv1 form tsStr wr pdf docx model u).response =
      (POSTv1 form tsStr wr pdf docx model u').response ∧
    (POSTv2 form tsStr wr pdf docx model u).unlinkAttempts =
      (POSTv2 form tsStr wr pdf docx model u).written ∧
    (POSTv2 form tsStr wr pdf docx model u).response =
      (POSTv2 form tsStr wr pdf docx model u').response := by
  obtain ⟨f, t, su, i, cr⟩ := form
  refine ⟨?_, ?_, ?_, ?_⟩
  · cases f with
    | none => rfl
    | some file => cases wr <;> rfl
  · cases f with
    | none => rfl
    | some file => cases wr <;> rfl
  · cases f with
    | none => rfl
    | some file =>
      by_cases h : i = ""
      · simp [POSTv2, h]
      · by_cases h2 : cr = ""
        · simp [POSTv2, h, h2]
        · cases wr <;> simp [POSTv2, h, h2]
  · cases f with
    | none => rfl
    | some file =>
      by_cases h : i = ""
      · simp [POSTv2, h]
      · by_cases h2 : cr = ""
        · simp [POSTv2, h, h2]
        · cases wr <;> simp [POSTv2, h, h2]

/-- C3 counterexample: the reply `42` contains no brace-delimited span, yet
the V1 parser (route.ts first revision and `part_000`) returns the value
`42` instead of failing: with no regex match it hands the whole reply to
`JSON.parse`, which succeeds on a bare JSON value. -/
theorem c3_counterexample :
    greedySpan "42" = none ∧ parseModelResponseV1 "42" = .ok (Json.num "42") :=
  ⟨rfl, rfl⟩

/-- C3 (amended): when the located span is not parseable JSON both parser
versions fail; when no span exists the V2 parser fails with the fixed
message, while the V1 parser parses the entire reply, failing only when the
whole reply is itself invalid JSON — so a bare JSON value such as `42` is
returned as a value by V1. -/
theorem c3_invalid_response :
    (∀ r : String, greedySpan r = none →
      parseModelResponseV2 r = .error "Réponse invalide du LLM") ∧
    (∀ r sp : String, greedySpan r = some sp →
      parseModelResponseV2 r = jsonParse sp ∧ parseModelResponseV1 r = jsonParse sp) ∧
    (∀ r : String, greedySpan r = none → parseModelResponseV1 r = jsonParse r) ∧
    parseModelResponseV1 "42" = .ok (Json.num "42") := by
  refine ⟨?_, ?_, ?_, rfl⟩
  · intro r h
    unfold parseModelResponseV2
    rw [h]
  · intro r sp h
    constructor
    · unfold parseModelResponseV2
      rw [h]
    · unfold parseModelResponseV1
      rw [h]
  · intro r h
    unfold parseModelResponseV1
    rw [h]

/-- C3 witness: a brace-free reply makes the V2 parser fail with the fixed
message. -/
theorem c3_invalid_response_witness :
    parseModelResponseV2 "pas de json ici" = .error "Réponse invalide du LLM" :=
  c3_invalid_response.1 "pas de json ici" (by decide)

/-- C6: a form without a `file` field yields HTTP 400 with an `error` body
and no scratch file write, in both route revisions, whatever the other
fields and stubs are. -/
theorem c6_missing_file (t su i cr tsStr : String) (wr : Except String Unit)
    (pdf docx : String → Except String String)
    (model : String → String → Except String (Option String)) (u : Bool) :
    (POSTv1 ⟨none, t, su, i, cr⟩ tsStr wr pdf docx model u).response.status = 400 ∧
    (POSTv1 ⟨none, t, su, i, cr⟩ tsStr wr pdf docx model u).response.body =
      errBody "Fichier manquant" ∧
    (POSTv1 ⟨none, t, su, i, cr⟩ tsStr wr pdf docx model u).written = [] ∧
    (POSTv2 ⟨none, t, su, i, cr⟩ tsStr wr pdf docx model u).response.status = 400 ∧
    (POSTv2 ⟨none, t, su, i, cr⟩ tsStr wr pdf docx model u).response.body =
      errBody "Aucun fichier fourni" ∧
    (POSTv2 ⟨none, t, su, i, cr⟩ tsStr wr pdf docx model u).written = [] :=
  ⟨rfl, rfl, rfl, rfl, rfl, rfl⟩

/-- C8: the prompt builders are pure — identical inputs give byte-identical
system and user messages — and the evaluation pipeline against any fixed
deterministic model stub yields identical results on identical inputs, in
both revisions. -/
theorem c8_determinism (stub : String → String → Except String (Option String))
    (t1 s1 i1 c1 w1 t2 s2 i2 c2 w2 : String)
    (ht : t1 = t2) (hs : s1 = s2) (hi : i1 = i2) (hc : c1 = c2) (hw : w1 = w2) :
    userPromptV1 t1 s1 i1 c1 w1 = userPromptV1 t2 s2 i2 c2 w2 ∧
    systemPromptV2 s1 = systemPromptV2 s2 ∧
    userPromptV2 t1 s1 i1 c1 w1 = userPromptV2 t2 s2 i2 c2 w2 ∧
    evaluateWorkV1 stub t1 s1 i1 c1 w1 = evaluateWorkV1 stub t2 s2 i2 c2 w2 ∧
    evaluateWorkV2 stub t1 s1 i1 c1 w1 = evaluateWorkV2 stub t2 s2 i2 c2 w2 := by
  subst ht hs hi hc hw
  exact ⟨rfl, rfl, rfl, rfl, rfl⟩

/-- C8 witness: the determinism theorem at concrete inputs. -/
theorem c8_determinism_witness :
    userPromptV1 "T" "S" "I" "C" "W" = userPromptV1 "T" "S" "I" "C" "W" ∧
    systemPromptV2 "S" = systemPromptV2 "S" ∧
    userPromptV2 "T" "S" "I" "C" "W" = userPromptV2 "T" "S" "I" "C" "W" ∧
    evaluateWorkV1 (fun _ _ => .ok (some "\x7b\x7d")) "T" "S" "I" "C" "W" =
      evaluateWorkV1 (fun _ _ => .ok (some "\x7b\x7d")) "T" "S" "I" "C" "W" ∧
    evaluateWorkV2 (fun _ _ => .ok (some "\x7b\x7d")) "T" "S" "I" "C" "W" =
      evaluateWorkV2 (fun _ _ => .ok (some "\x7b\x7d")) "T" "S" "I" "C" "W" :=
  c8_determinism (fun _ _ => .ok (some "\x7b\x7d")) "T" "S" "I" "C" "W" "T" "S" "I" "C" "W"
    rfl rfl rfl rfl rfl

theorem fileTypeOf_data (s : String) (pre ext : List Char)
    (hs : s.data = pre ++ '.' :: ext) (h : '.' ∉ ext) :
    fileTypeOf s = toLowerStr ⟨ext⟩ := by
  unfold fileTypeOf afterLastDot
  rw [hs, afterLastDotL_last _ _ h]

/-- C4 counterexample: the V1 orchestrator (route.ts lines 180-182,
`part_000` lines 201-203) compares the UNTRIMMED length against 10: the
extracted text `"ab        "` (two letters and eight spaces) has untrimmed
length 10 but trimmed length 2, and is NOT rejected — the pipeline proceeds
to the model call and returns 200 — refuting the claim that rejection
happens exactly on the trimmed length for every cited revision. -/
theorem c4_counterexample :
    ("ab        " : String).length = 10 ∧
    (trimStr "ab        ").length = 2 ∧
    (POSTv1 ⟨some ⟨"w.pdf"⟩, "T", "S", "I", "C"⟩ "1700" (.ok ())
        (fun _ => .ok "ab        ") (fun _ => .ok "")
        (fun _ _ => .ok (some "\x7b\"grade\":\"15/20\"\x7d")) true).response =
      ⟨200, Json.obj [("grade", Json.str "15/20")]⟩ :=
  ⟨rfl, rfl, rfl⟩

/-- C4 (amended): the V2 orchestrator rejects exactly when the extracted
text is empty or its trimmed length is below 10, as the claim states; the
V1 orchestrator instead rejects exactly when the text is empty or its
UNTRIMMED length is below 10, so a text of untrimmed length at least 10 but
trimmed length below 10 passes V1's check and proceeds to the model call.
Stated as the exact response equation of both versions for an arbitrary
extraction result `s`. -/
theorem c4_length_guard (s ts t su i cr : String)
    (docx : String → Except String String)
    (model : String → String → Except String (Option String)) (u : Bool)
    (hi : ¬i = "") (hc : ¬cr = "") :
    (POSTv1 ⟨some ⟨"w.pdf"⟩, t, su, i, cr⟩ ts (.ok ()) (fun _ => .ok s) docx model u).response =
      responseOf (if s = "" || s.length < 10 then
          .error "Le fichier semble vide ou illisible."
        else evaluateWorkV1 model t su i cr s) ∧
    (POSTv2 ⟨some ⟨"w.pdf"⟩, t, su, i, cr⟩ ts (.ok ()) (fun _ => .ok s) docx model u).response =
      responseOf (if s = "" || (trimStr s).length < 10 then
          .error ("Texte extrait trop court (" ++ toString s.length ++
            " caractères). Vérifiez que le fichier contient du texte extractible.")
        else evaluateWorkV2 model t su i cr s) := by
  have hd : (ts ++ "-" ++ "w.pdf").data = (ts.data ++ ['-', 'w']) ++ '.' :: ['p', 'd', 'f'] := by
    rw [strData_append, strData_append, List.append_assoc, List.append_assoc]
    rfl
  have hft : fileTypeOf (ts ++ "-" ++ "w.pdf") = "pdf" := by
    rw [fileTypeOf_data _ _ _ hd (by decide)]
    decide
  constructor
  · simp only [POSTv1, innerV1, hft, extractText]
    simp
  · simp only [POSTv2, hi, hc, innerV2, hft, extractTextV2]
    simp [hi, hc]

/-- C4 witness: the amended guard equation at a concrete input. -/
theorem c4_length_guard_witness :
    (POSTv1 ⟨some ⟨"w.pdf"⟩, "T", "S", "I", "C"⟩ "1700" (.ok ())
        (fun _ => .ok "texte assez long") (fun _ => .ok "")
        (fun _ _ => .ok (some "\x7b\x7d")) true).response =
      responseOf (if ("texte assez long" : String) = "" || ("texte assez long" : String).length < 10 then
          .error "Le fichier semble vide ou illisible."
        else evaluateWorkV1 (fun _ _ => .ok (some "\x7b\x7d")) "T" "S" "I" "C" "texte assez long") ∧
    (POSTv2 ⟨some ⟨"w.pdf"⟩, "T", "S", "I", "C"⟩ "1700" (.ok ())
        (fun _ => .ok "texte assez long") (fun _ => .ok "")
        (fun _ _ => .ok (some "\x7b\x7d")) true).response =
      responseOf (if ("texte assez long" : String) = "" || (trimStr "texte assez long").length < 10 then
          .error ("Texte extrait trop court (" ++ toString ("texte assez long" : String).length ++
            " caractères). Vérifiez que le fichier contient du texte extractible.")
        else evaluateWorkV2 (fun _ _ => .ok (some "\x7b\x7d")) "T" "S" "I" "C" "texte assez long") :=
  c4_length_guard "texte assez long" "1700" "T" "S" "I" "C" (fun _ => .ok "")
    (fun _ _ => .ok (some "\x7b\x7d")) true (by decide) (by decide)

/-- C5 counterexample: the ZAI client (route.ts first revision, line 27)
appends the completion path unconditionally, so a base URL already ending in
`/chat/completions` produces a final URL containing the segment twice,
refuting the claim for that client. -/
theorem c5_counterexample :
    zaiCompletionUrl "https://api.z.ai/chat/completions" =
      "https://api.z.ai/chat/completions/chat/completions" ∧
    countSubstr "/chat/completions"
      (zaiCompletionUrl "https://api.z.ai/chat/completions") = 2 :=
  ⟨rfl, by decide⟩

/-- C5 (amended): the ZAI client always appends `/chat/completions` after
stripping trailing slashes (so a base already ending in the path duplicates
it); the OpenAI client of `part_000` does satisfy the claim: for every base
URL that, after trailing-slash stripping, either does not contain the
completion path at all, or ends with it and contains it exactly once, the
final URL contains `/chat/completions` exactly once. -/
theorem c5_url_single_segment :
    (∀ b : String, zaiCompletionUrl b = stripTrailingSlashes b ++ "/chat/completions") ∧
    (∀ b : String, countSubstr "/chat/completions" (stripTrailingSlashes b) = 0 →
      countSubstr "/chat/completions" (openaiCompletionUrl b) = 1) ∧
    (∀ b : String, strEndsWith (stripTrailingSlashes b) "/chat/completions" = true →
      countSubstr "/chat/completions" (stripTrailingSlashes b) = 1 →
      countSubstr "/chat/completions" (openaiCompletionUrl b) = 1) := by
  refine ⟨fun b => rfl, ?_, ?_⟩
  · intro b h0
    unfold countSubstr at h0
    unfold openaiCompletionUrl countSubstr
    by_cases hE : strEndsWith (stripTrailingSlashes b) "/chat/completions" = true
    · exfalso
      unfold strEndsWith at hE
      obtain ⟨r, hr⟩ := isPre_exists _ _ hE
      have hurl : (stripTrailingSlashes b).data = r.reverse ++ "/chat/completions".data := by
        have h2 := congrArg List.reverse hr
        simpa using h2
      have hge : countSub "/chat/completions".data "/chat/completions".data ≤
          countSub "/chat/completions".data (stripTrailingSlashes b).data := by
        rw [hurl]
        exact countSub_le_append _ _ _
      rw [h0] at hge
      have hone : countSub "/chat/completions".data "/chat/completions".data = 1 := by decide
      omega
    · rw [if_neg hE]
      by_cases hV : occursIn ("/v1".data) (stripTrailingSlashes b).data = true
      · rw [if_pos hV, strData_append, countSub_append _ _ (by decide) _, h0]
        decide
      · rw [if_neg hV, strData_append, countSub_append _ _ (by decide) _, h0]
        decide
  · intro b hE h1
    unfold countSubstr at h1
    unfold openaiCompletionUrl countSubstr
    rw [if_pos hE]
    exact h1

/-- C5 witness: the OpenAI-client conjunct applied to a plain base URL. -/
theorem c5_url_single_segment_witness :
    countSubstr "/chat/completions" (openaiCompletionUrl "https://example.com") = 1 :=
  c5_url_single_segment.2.1 "https://example.com" (by decide)

/-- C7: for an uploaded file whose type tag (lower-cased extension of the
timestamped name) is neither `pdf` nor `docx`, the V1 route returns HTTP 500
with the unsupported-type error body, the scratch file is written, and its
deletion is attempted regardless. -/
theorem c7_unsupported_type (name tsStr t su i cr : String)
    (pdf docx : String → Except String String)
    (model : String → String → Except String (Option String)) (u : Bool)
    (h1 : ¬fileTypeOf (tsStr ++ "-" ++ name) = "pdf")
    (h2 : ¬fileTypeOf (tsStr ++ "-" ++ name) = "docx") :
    (POSTv1 ⟨some ⟨name⟩, t, su, i, cr⟩ tsStr (.ok ()) pdf docx model u).response.status = 500 ∧
    (POSTv1 ⟨some ⟨name⟩, t, su, i, cr⟩ tsStr (.ok ()) pdf docx model u).response.body =
      errBody "Type non supporté" ∧
    (POSTv1 ⟨some ⟨name⟩, t, su, i, cr⟩ tsStr (.ok ()) pdf docx model u).written =
      [pathJoin UPLOAD_DIR (tsStr ++ "-" ++ name)] ∧
    (POSTv1 ⟨some ⟨name⟩, t, su, i, cr⟩ tsStr (.ok ()) pdf docx model u).unlinkAttempts =
      [pathJoin UPLOAD_DIR (tsStr ++ "-" ++ name)] := by
  have hex : extractText pdf docx (pathJoin UPLOAD_DIR (tsStr ++ "-" ++ name))
      (fileTypeOf (tsStr ++ "-" ++ name)) = .error "Type non supporté" := by
    unfold extractText
    rw [if_neg h1, if_neg h2]
  refine ⟨?_, ?_, rfl, rfl⟩ <;> simp only [POSTv1, innerV1, hex, responseOf]

/-- C7 witness: a `.txt` upload at a concrete timestamp. -/
theorem c7_unsupported_type_witness :
    (POSTv1 ⟨some ⟨"essai.txt"⟩, "T", "S", "I", "C"⟩ "1700" (.ok ())
      (fun _ => .ok "0123456789") (fun _ => .ok "0123456789")
      (fun _ _ => .ok (some "\x7b\x7d")) true).response.status = 500 ∧
    (POSTv1 ⟨some ⟨"essai.txt"⟩, "T", "S", "I", "C"⟩ "1700" (.ok ())
      (fun _ => .ok "0123456789") (fun _ => .ok "0123456789")
      (fun _ _ => .ok (some "\x7b\x7d")) true).response.body =
      errBody "Type non supporté" ∧
    (POSTv1 ⟨some ⟨"essai.txt"⟩, "T", "S", "I", "C"⟩ "1700" (.ok ())
      (fun _ => .ok "0123456789") (fun _ => .ok "0123456789")
      (fun _ _ => .ok (some "\x7b\x7d")) true).written =
      [pathJoin UPLOAD_DIR ("1700" ++ "-" ++ "essai.txt")] ∧
    (POSTv1 ⟨some ⟨"essai.txt"⟩, "T", "S", "I", "C"⟩ "1700" (.ok ())
      (fun _ => .ok "0123456789") (fun _ => .ok "0123456789")
      (fun _ _ => .ok (some "\x7b\x7d")) true).unlinkAttempts =
      [pathJoin UPLOAD_DIR ("1700" ++ "-" ++ "essai.txt")] :=
  c7_unsupported_type "essai.txt" "1700" "T" "S" "I" "C"
    (fun _ => .ok "0123456789") (fun _ => .ok "0123456789")
    (fun _ _ => .ok (some "\x7b\x7d")) true (by decide) (by decide)

/-- C9: the type tag is the lower-cased segment after the last dot of the
timestamped name, so extension matching is case-insensitive (`.PDF` and
`.DocX` dispatch to the pdf and docx extractors for any base name and any
digit timestamp), and a filename with no dot makes the tag the entire
lower-cased timestamped name — which contains the dash separator, so the
request always fails as an unsupported type. -/
theorem c9_extension_tag (ts base name t su i cr fp : String)
    (pdf docx : String → Except String String)
    (model : String → String → Except String (Option String)) (u : Bool)
    (hts : ∀ c ∈ ts.data, c.isDigit = true) (hname : '.' ∉ name.data) :
    fileTypeOf (ts ++ "-" ++ base ++ ".PDF") = "pdf" ∧
    fileTypeOf (ts ++ "-" ++ base ++ ".DocX") = "docx" ∧
    extractText pdf docx fp (fileTypeOf (ts ++ "-" ++ base ++ ".PDF")) = pdf fp ∧
    extractText pdf docx fp (fileTypeOf (ts ++ "-" ++ base ++ ".DocX")) = docx fp ∧
    fileTypeOf (ts ++ "-" ++ name) = toLowerStr (ts ++ "-" ++ name) ∧
    (POSTv1 ⟨some ⟨name⟩, t, su, i, cr⟩ ts (.ok ()) pdf docx model u).response =
      ⟨500, errBody "Type non supporté"⟩ := by
  have hdP : (ts ++ "-" ++ base ++ ".PDF").data =
      (ts ++ "-" ++ base).data ++ '.' :: ['P', 'D', 'F'] := by
    rw [strData_append]
  have hdD : (ts ++ "-" ++ base ++ ".DocX").data =
      (ts ++ "-" ++ base).data ++ '.' :: ['D', 'o', 'c', 'X'] := by
    rw [strData_append]
  have hP : fileTypeOf (ts ++ "-" ++ base ++ ".PDF") = "pdf" := by
    rw [fileTypeOf_data _ _ _ hdP (by decide)]
    decide
  have hD : fileTypeOf (ts ++ "-" ++ base ++ ".DocX") = "docx" := by
    rw [fileTypeOf_data _ _ _ hdD (by decide)]
    decide
  have hnodot : '.' ∉ (ts ++ "-" ++ name).data := by
    rw [strData_append, strData_append]
    intro hm
    rcases List.mem_append.mp hm with hm1 | hm2
    · rcases List.mem_append.mp hm1 with hma | hmb
      · exact digits_no_dot hts hma
      · simp at hmb
    · exact hname hm2
  have h5 : fileTypeOf (ts ++ "-" ++ name) = toLowerStr (ts ++ "-" ++ name) := by
    unfold fileTypeOf afterLastDot
    rw [afterLastDotL_no_dot _ hnodot]
  have hdash : '-' ∈ (ts ++ "-" ++ name).data := by
    rw [strData_append, strData_append]
    have hone : '-' ∈ "-".data := by decide
    exact List.mem_append.mpr (Or.inl (List.mem_append.mpr (Or.inr hone)))
  have htagp : ¬fileTypeOf (ts ++ "-" ++ name) = "pdf" := by
    rw [h5]
    intro he
    have hm := dash_mem_toLowerStr _ hdash
    rw [he] at hm
    exact absurd hm (by decide)
  have htagd : ¬fileTypeOf (ts ++ "-" ++ name) = "docx" := by
    rw [h5]
    intro he
    have hm := dash_mem_toLowerStr _ hdash
    rw [he] at hm
    exact absurd hm (by decide)
  have hex : extractText pdf docx (pathJoin UPLOAD_DIR (ts ++ "-" ++ name))
      (fileTypeOf (ts ++ "-" ++ name)) = .error "Type non supporté" := by
    unfold extractText
    rw [if_neg htagp, if_neg htagd]
  refine ⟨hP, hD, ?_, ?_, h5, ?_⟩
  · rw [hP]
    simp [extractText]
  · rw [hD]
    simp [extractText]
  · simp only [POSTv1, innerV1, hex, responseOf]

/-- C9 witness: the tag behavior at concrete inputs. -/
theorem c9_extension_tag_witness :
    fileTypeOf ("1700000000000" ++ "-" ++ "work" ++ ".PDF") = "pdf" ∧
    fileTypeOf ("1700000000000" ++ "-" ++ "work" ++ ".DocX") = "docx" ∧
    extractText (fun _ => .ok "0123456789") (fun _ => .ok "texte docx!") "/tmp/uploads/x"
      (fileTypeOf ("1700000000000" ++ "-" ++ "work" ++ ".PDF")) =
      (fun _ => (.ok "0123456789" : Except String String)) "/tmp/uploads/x" ∧
    extractText (fun _ => .ok "0123456789") (fun _ => .ok "texte docx!") "/tmp/uploads/x"
      (fileTypeOf ("1700000000000" ++ "-" ++ "work" ++ ".DocX")) =
      (fun _ => (.ok "texte docx!" : Except String String)) "/tmp/uploads/x" ∧
    fileTypeOf ("1700000000000" ++ "-" ++ "README") =
      toLowerStr ("1700000000000" ++ "-" ++ "README") ∧
    (POSTv1 ⟨some ⟨"README"⟩, "T", "S", "I", "C"⟩ "1700000000000" (.ok ())
      (fun _ => .ok "0123456789") (fun _ => .ok "texte docx!")
      (fun _ _ => .ok (some "\x7b\x7d")) true).response =
      ⟨500, errBody "Type non supporté"⟩ :=
  c9_extension_tag "1700000000000" "work" "README" "T" "S" "I" "C" "/tmp/uploads/x"
    (fun _ => .ok "0123456789") (fun _ => .ok "texte docx!")
    (fun _ _ => .ok (some "\x7b\x7d")) true (by decide) (by decide)

theorem pathJoin_dotdot_escape (ts : String) (hts : ∀ c ∈ ts.data, c.isDigit = true) :
    pathJoin UPLOAD_DIR (ts ++ "-" ++ "../../../evil.pdf") = "/tmp/evil.pdf" := by
  have hD : '/' ∉ ts.data := digits_no_slash hts
  have hseg : '/' ∉ ts.data ++ ['-', '.', '.'] := by
    intro hm
    rcases List.mem_append.mp hm with hm1 | hm2
    · exact hD hm1
    · simp at hm2
  have e1 : (ts ++ "-" ++ "../../../evil.pdf").data =
      ts.data ++ ('-' :: "../../../evil.pdf".data) := by
    rw [strData_append, strData_append, List.append_assoc]
    rfl
  have hdata : UPLOAD_DIR.data ++ '/' :: (ts ++ "-" ++ "../../../evil.pdf").data =
      '/' :: (['t', 'm', 'p'] ++ '/' :: (['u', 'p', 'l', 'o', 'a', 'd', 's'] ++ '/' ::
        ((ts.data ++ ['-', '.', '.']) ++ '/' :: (['.', '.'] ++ '/' :: (['.', '.'] ++ '/' ::
        ['e', 'v', 'i', 'l', '.', 'p', 'd', 'f']))))) := by
    rw [e1, List.append_assoc]
    rfl
  unfold pathJoin
  rw [hdata, splitSegs_slash, splitSegs_seg ['t', 'm', 'p'] _ (by decide),
    splitSegs_seg ['u', 'p', 'l', 'o', 'a', 'd', 's'] _ (by decide),
    splitSegs_seg (ts.data ++ ['-', '.', '.']) _ hseg,
    splitSegs_seg ['.', '.'] _ (by decide), splitSegs_seg ['.', '.'] _ (by decide),
    splitSegs_no_slash ['e', 'v', 'i', 'l', '.', 'p', 'd', 'f'] (by decide)]
  unfold normSegs
  rw [List.foldl_cons, List.foldl_cons, List.foldl_cons, List.foldl_cons, List.foldl_cons,
    List.foldl_cons, List.foldl_cons, List.foldl_nil]
  have n1 : normStep [] [] = [] := rfl
  have n2 : normStep [] ['t', 'm', 'p'] = [['t', 'm', 'p']] := rfl
  have n3 : normStep [['t', 'm', 'p']] ['u', 'p', 'l', 'o', 'a', 'd', 's'] =
      [['t', 'm', 'p'], ['u', 'p', 'l', 'o', 'a', 'd', 's']] := rfl
  have hne0 : ts.data ++ ['-', '.', '.'] ≠ [] := by simp
  have hne1 : ts.data ++ ['-', '.', '.'] ≠ ['.'] := by
    intro h
    have hl := congrArg List.length h
    simp only [List.length_append, List.length_cons, List.length_nil] at hl
    omega
  have hne2 : ts.data ++ ['-', '.', '.'] ≠ ['.', '.'] := by
    intro h
    have hl := congrArg List.length h
    simp only [List.length_append, List.length_cons, List.length_nil] at hl
    omega
  have n4 := normStep_keep [['t', 'm', 'p'], ['u', 'p', 'l', 'o', 'a', 'd', 's']]
    (ts.data ++ ['-', '.', '.']) hne0 hne1 hne2
  have n5 := normStep_dotdot [['t', 'm', 'p'], ['u', 'p', 'l', 'o', 'a', 'd', 's']]
    (ts.data ++ ['-', '.', '.'])
  have n6 : normStep [['t', 'm', 'p'], ['u', 'p', 'l', 'o', 'a', 'd', 's']] ['.', '.'] =
      [['t', 'm', 'p']] := rfl
  have n7 : normStep [['t', 'm', 'p']] ['e', 'v', 'i', 'l', '.', 'p', 'd', 'f'] =
      [['t', 'm', 'p'], ['e', 'v', 'i', 'l', '.', 'p', 'd', 'f']] := rfl
  rw [n1, n2, n3, n4, n5, n6, n7]
  rfl

/-- C10: the scratch path joins the upload directory with the timestamped
client-supplied filename without sanitization, so a filename with `..`
segments makes both the write and the unlink target a path outside the
scratch directory: for the upload name `../../../evil.pdf` and any digit
timestamp, the path is `/tmp/evil.pdf`, which is not under `/tmp/uploads`. -/
theorem c10_scratch_escape (ts t su i cr : String)
    (pdf docx : String → Except String String)
    (model : String → String → Except String (Option String)) (u : Bool)
    (hts : ∀ c ∈ ts.data, c.isDigit = true) :
    pathJoin UPLOAD_DIR (ts ++ "-" ++ "../../../evil.pdf") = "/tmp/evil.pdf" ∧
    isUnder UPLOAD_DIR (pathJoin UPLOAD_DIR (ts ++ "-" ++ "../../../evil.pdf")) = false ∧
    (POSTv1 ⟨some ⟨"../../../evil.pdf"⟩, t, su, i, cr⟩ ts (.ok ()) pdf docx model u).written =
      ["/tmp/evil.pdf"] ∧
    (POSTv1 ⟨some ⟨"../../../evil.pdf"⟩, t, su, i, cr⟩ ts (.ok ()) pdf docx model u).unlinkAttempts =
      ["/tmp/evil.pdf"] := by
  have hmain := pathJoin_dotdot_escape ts hts
  refine ⟨hmain, ?_, ?_, ?_⟩
  · rw [hmain]
    decide
  · show [pathJoin UPLOAD_DIR (ts ++ "-" ++ "../../../evil.pdf")] = _
    rw [hmain]
  · show [pathJoin UPLOAD_DIR (ts ++ "-" ++ "../../../evil.pdf")] = _
    rw [hmain]

/-- C10 witness: the escape at a concrete timestamp. -/
theorem c10_scratch_escape_witness :
    pathJoin UPLOAD_DIR ("1700000000000" ++ "-" ++ "../../../evil.pdf") = "/tmp/evil.pdf" ∧
    isUnder UPLOAD_DIR
      (pathJoin UPLOAD_DIR ("1700000000000" ++ "-" ++ "../../../evil.pdf")) = false ∧
    (POSTv1 ⟨some ⟨"../../../evil.pdf"⟩, "T", "S", "I", "C"⟩ "1700000000000" (.ok ())
      (fun _ => .ok "0123456789") (fun _ => .ok "0123456789")
      (fun _ _ => .ok (some "\x7b\x7d")) true).written = ["/tmp/evil.pdf"] ∧
    (POSTv1 ⟨some ⟨"../../../evil.pdf"⟩, "T", "S", "I", "C"⟩ "1700000000000" (.ok ())
      (fun _ => .ok "0123456789") (fun _ => .ok "0123456789")
      (fun _ _ => .ok (some "\x7b\x7d")) true).unlinkAttempts = ["/tmp/evil.pdf"] :=
  c10_scratch_escape "1700000000000" "T" "S" "I" "C"
    (fun _ => .ok "0123456789") (fun _ => .ok "0123456789")
    (fun _ _ => .ok (some "\x7b\x7d")) true (by decide)
